import Mathlib

/-!
Shallow embedding of the actor-update core of `src/algos/leq/actor.py`
(functions `DPG_lambda_update_actor` and `DPG_multistep_update_actor`).

Real-valued tensors are modelled per batch element with exact rationals `ℚ`;
per-step sequences (rewards, alive-masks, critic values) are functions `ℕ → ℚ`.
The dynamics model, policy and critic are opaque collaborators and are taken
as abstract functions, exactly as the code consumes them.
-/

namespace LEQ

/-- Alive-mask sequence, from `calculate_gae_foward`:
`mask_weights = [1.0]` and `mask_weights.append(mask_weights[i] * (1 - terminal))`
(actor.py lines 122 and 132). -/
def mask_weights (terminal : ℕ → ℚ) : ℕ → ℚ
  | 0 => 1
  | i + 1 => mask_weights terminal i * (1 - terminal i)

/-- The accumulated lambda weight after `n` backward iterations, from
`lamb_weight = 1.0` and `lamb_weight = 1.0 + lamb * lamb_weight`
(actor.py lines 136 and 146). -/
def lamb_weight (lamb : ℚ) : ℕ → ℚ
  | 0 => 1
  | n + 1 => 1 + lamb * lamb_weight lamb n

/-- The lambda-return backward loop of `DPG_lambda_update_actor.calculate_gae_foward`
(actor.py lines 136-147), indexed from the end of the horizon:
`q_rollback_lamb ... j` is the entry `q_rollout[H - j]`.  `j = 0` is the
initialization `q_rollout = [q_values[-1]]`; step `j + 1` performs the loop body
for `i = H - (j+1)`:
`q_next = mask_weights[i] * rewards[i] + mask_weights[i+1] * discount * q_rollout[-1]`,
`next_value = (q_values[i] + lamb * lamb_weight * q_next) / (1 + lamb * lamb_weight)`,
with `lamb_weight` read before its update (after `j` previous iterations it equals
`lamb_weight lamb j`). -/
def q_rollback_lamb (lamb discount : ℚ) (rewards mask q_values : ℕ → ℚ) (H : ℕ) :
    ℕ → ℚ
  | 0 => q_values H
  | j + 1 =>
      (q_values (H - (j + 1)) + lamb * lamb_weight lamb j *
          (mask (H - (j + 1)) * rewards (H - (j + 1)) +
            mask (H - (j + 1) + 1) * discount *
              q_rollback_lamb lamb discount rewards mask q_values H j)) /
        (1 + lamb * lamb_weight lamb j)

/-- Entry `q_rollout[i]` of the lambda variant in forward indexing: the value the code
stores at index `i` after `q_rollout = list(reversed(q_rollout))` (actor.py line 147). -/
def q_rollout_lamb (lamb discount : ℚ) (rewards mask q_values : ℕ → ℚ) (H i : ℕ) : ℚ :=
  q_rollback_lamb lamb discount rewards mask q_values H (H - i)

/-- The multi-step backward loop of `DPG_multistep_update_actor.calculate_gae_foward`
(actor.py lines 274-281), indexed from the end of the horizon:
`q_rollback_ms ... j` is the entry `q_rollout[H - j]`.  Step `j + 1` performs
the loop body for `i = H - (j+1)`:
`q_next = mask_weights[i] * rewards[i] + mask_weights[i+1] * discount * q_rollout[-1]`. -/
def q_rollback_ms (discount : ℚ) (rewards mask q_values : ℕ → ℚ) (H : ℕ) : ℕ → ℚ
  | 0 => q_values H
  | j + 1 =>
      mask (H - (j + 1)) * rewards (H - (j + 1)) +
        mask (H - (j + 1) + 1) * discount *
          q_rollback_ms discount rewards mask q_values H j

/-- Entry `q_rollout[i]` of the multi-step variant in forward indexing (actor.py line 281). -/
def q_rollout_ms (discount : ℚ) (rewards mask q_values : ℕ → ℚ) (H i : ℕ) : ℚ :=
  q_rollback_ms discount rewards mask q_values H (H - i)

/-- Asymmetric advantage weights (actor.py lines 150-155):
`jnp.where(q_rollout[i] > q_values[i], expectile, 1 - expectile)` for `i < H`,
then `ep_weights.append(0.5)` at the terminal index. -/
def ep_weights (expectile : ℚ) (q_rollout q_values : ℕ → ℚ) (H i : ℕ) : ℚ :=
  if i < H then (if q_rollout i > q_values i then expectile else 1 - expectile)
  else 1 / 2

/-- C1: the lambda-weighted return estimator satisfies
`q_rollout[H] = q_values[H]` and, for `i < H`,
`q_rollout[i] = (q_values[i] + lamb * w * q_next) / (1 + lamb * w)` with
`q_next = mask[i] * rewards[i] + mask[i+1] * discount * q_rollout[i+1]`, where
the weight `w = lamb_weight lamb (H - 1 - i)` is the pre-update accumulated
weight: it starts at `1` at `i = H - 1` and is only afterwards updated to
`1 + lamb * w`. -/
theorem lambda_return_backward_recursion (H : ℕ) (hH : 1 ≤ H) (lamb discount : ℚ)
    (hlamb : 0 ≤ lamb) (rewards mask q_values : ℕ → ℚ) :
    q_rollout_lamb lamb discount rewards mask q_values H H = q_values H ∧
    lamb_weight lamb 0 = 1 ∧
    (∀ n, lamb_weight lamb (n + 1) = 1 + lamb * lamb_weight lamb n) ∧
    (∀ i, i < H →
      q_rollout_lamb lamb discount rewards mask q_values H i =
        (q_values i + lamb * lamb_weight lamb (H - 1 - i) *
            (mask i * rewards i + mask (i + 1) * discount *
              q_rollout_lamb lamb discount rewards mask q_values H (i + 1))) /
          (1 + lamb * lamb_weight lamb (H - 1 - i))) := by
  refine ⟨?_, rfl, fun n => rfl, ?_⟩
  · simp [q_rollout_lamb, q_rollback_lamb]
  · intro i hi
    have h1 : H - i = (H - 1 - i) + 1 := by omega
    have h2 : H - ((H - 1 - i) + 1) = i := by omega
    have h3 : H - (i + 1) = H - 1 - i := by omega
    rw [q_rollout_lamb, h1, q_rollback_lamb, h2, q_rollout_lamb, h3]

/-- Witness for C1 at `H = 1`, `lamb = 1/2`, `discount = 1`, constant sequences. -/
theorem lambda_return_backward_recursion_witness :
    q_rollout_lamb (1 / 2) 1 (fun _ => 2) (fun _ => 1) (fun _ => 3) 1 1 = 3 :=
  (lambda_return_backward_recursion 1 le_rfl (1 / 2) 1 (by norm_num)
    (fun _ => 2) (fun _ => 1) (fun _ => 3)).1

/-- C2: the multi-step return estimator satisfies `q_rollout[H] = q_values[H]`
and, for `i < H`,
`q_rollout[i] = mask[i] * rewards[i] + mask[i+1] * discount * q_rollout[i+1]`,
with no blending with intermediate critic values. -/
theorem multistep_return_backward_recursion (H : ℕ) (hH : 1 ≤ H) (discount : ℚ)
    (rewards mask q_values : ℕ → ℚ) :
    q_rollout_ms discount rewards mask q_values H H = q_values H ∧
    (∀ i, i < H →
      q_rollout_ms discount rewards mask q_values H i =
        mask i * rewards i + mask (i + 1) * discount *
          q_rollout_ms discount rewards mask q_values H (i + 1)) := by
  refine ⟨?_, ?_⟩
  · simp [q_rollout_ms, q_rollback_ms]
  · intro i hi
    have h1 : H - i = (H - 1 - i) + 1 := by omega
    have h2 : H - ((H - 1 - i) + 1) = i := by omega
    have h3 : H - (i + 1) = H - 1 - i := by omega
    rw [q_rollout_ms, h1, q_rollback_ms, h2, q_rollout_ms, h3]

/-- Witness for C2 at `H = 1`, `discount = 1`, constant sequences. -/
theorem multistep_return_backward_recursion_witness :
    q_rollout_ms 1 (fun _ => 2) (fun _ => 1) (fun _ => 3) 1 1 = 3 :=
  (multistep_return_backward_recursion 1 le_rfl 1
    (fun _ => 2) (fun _ => 1) (fun _ => 3)).1

/-- When every terminal flag lies in `[0, 1]`, every alive-mask value lies in `[0, 1]`.
Shared between the mask-invariant and masked-mean developments. -/
theorem mask_weights_mem_unit (terminal : ℕ → ℚ)
    (hterm : ∀ i, 0 ≤ terminal i ∧ terminal i ≤ 1) (i : ℕ) :
    0 ≤ mask_weights terminal i ∧ mask_weights terminal i ≤ 1 := by
  induction i with
  | zero => exact ⟨zero_le_one, le_refl 1⟩
  | succ i ih =>
      have ht := hterm i
      constructor
      · have : 0 ≤ 1 - terminal i := by linarith [ht.2]
        exact mul_nonneg ih.1 this
      · calc mask_weights terminal i * (1 - terminal i) ≤ 1 * 1 := by
              apply mul_le_mul ih.2 (by linarith [ht.1]) (by linarith [ht.2]) zero_le_one
          _ = 1 := one_mul 1

/-- C7: for terminal flags in `[0, 1]`, the alive-mask sequence
`mask[0] = 1`, `mask[i+1] = mask[i] * (1 - terminal[i])` is monotonically
non-increasing, stays in `[0, 1]`, and is absorbed at `0`: once `mask[i] = 0`,
every later `mask[j] = 0`. -/
theorem mask_weights_invariant (terminal : ℕ → ℚ)
    (hterm : ∀ i, 0 ≤ terminal i ∧ terminal i ≤ 1) :
    (∀ i, mask_weights terminal (i + 1) ≤ mask_weights terminal i) ∧
    (∀ i, 0 ≤ mask_weights terminal i ∧ mask_weights terminal i ≤ 1) ∧
    (∀ i j, i ≤ j → mask_weights terminal i = 0 → mask_weights terminal j = 0) := by
  refine ⟨?_, mask_weights_mem_unit terminal hterm, ?_⟩
  · intro i
    have hm := mask_weights_mem_unit terminal hterm i
    have ht := hterm i
    calc mask_weights terminal i * (1 - terminal i) ≤ mask_weights terminal i * 1 := by
          apply mul_le_mul_of_nonneg_left (by linarith [ht.1]) hm.1
      _ = mask_weights terminal i := mul_one _
  · intro i j hij h0
    induction j, hij using Nat.le_induction with
    | base => exact h0
    | succ j hij ih => rw [mask_weights, ih, zero_mul]

/-- Witness for C7 with the terminal sequence that terminates at step 1. -/
theorem mask_weights_invariant_witness :
    mask_weights (fun i => if i = 1 then 1 else 0) 3 = 0 :=
  (mask_weights_invariant (fun i => if i = 1 then 1 else 0)
    (fun i => by dsimp only; constructor <;> split <;> norm_num)).2.2 2 3 (by norm_num) (by
      show mask_weights _ 1 * (1 - (if 1 = 1 then (1 : ℚ) else 0)) = 0
      norm_num)

/-- C6: the advantage weight is exactly `expectile` when
`q_rollout[i] > q_values[i]` (for `i < H`), exactly `1 - expectile` otherwise,
and exactly `1/2` at the terminal index `H`. -/
theorem ep_weights_asymmetric (expectile : ℚ) (q_rollout q_values : ℕ → ℚ) (H : ℕ) :
    (∀ i, i < H → q_rollout i > q_values i →
      ep_weights expectile q_rollout q_values H i = expectile) ∧
    (∀ i, i < H → ¬ q_rollout i > q_values i →
      ep_weights expectile q_rollout q_values H i = 1 - expectile) ∧
    ep_weights expectile q_rollout q_values H H = 1 / 2 := by
  refine ⟨fun i hi hgt => ?_, fun i hi hle => ?_, ?_⟩
  · rw [ep_weights, if_pos hi, if_pos hgt]
  · rw [ep_weights, if_pos hi, if_neg hle]
  · rw [ep_weights, if_neg (lt_irrefl H)]

/-- Witness for C6 at `H = 1`, `expectile = 7/10`: one step in each branch
plus the terminal index. -/
theorem ep_weights_asymmetric_witness :
    ep_weights (7 / 10) (fun _ => 1) (fun _ => 0) 1 0 = 7 / 10 ∧
    ep_weights (7 / 10) (fun _ => 0) (fun _ => 0) 1 0 = 1 - 7 / 10 ∧
    ep_weights (7 / 10) (fun _ => 1) (fun _ => 0) 1 1 = 1 / 2 :=
  ⟨(ep_weights_asymmetric (7 / 10) (fun _ => 1) (fun _ => 0) 1).1 0 one_pos one_pos,
   (ep_weights_asymmetric (7 / 10) (fun _ => 0) (fun _ => 0) 1).2.1 0 one_pos
     (lt_irrefl 0),
   (ep_weights_asymmetric (7 / 10) (fun _ => 1) (fun _ => 0) 1).2.2⟩

/-- At `lamb = 0` the backward-indexed lambda recursion returns the critic value
at the index it is currently visiting. -/
theorem q_rollback_lamb_zero (discount : ℚ) (rewards mask q_values : ℕ → ℚ)
    (H j : ℕ) :
    q_rollback_lamb 0 discount rewards mask q_values H j = q_values (H - j) := by
  induction j with
  | zero => simp [q_rollback_lamb]
  | succ j ih => simp [q_rollback_lamb]

/-- C8: with `lamb = 0` the lambda-weighted return estimator degenerates to the
critic's own per-step estimates: `q_rollout[i] = q_values[i]` for every `i ≤ H`. -/
theorem lambda_zero_returns_critic_values (H i : ℕ) (hi : i ≤ H) (discount : ℚ)
    (rewards mask q_values : ℕ → ℚ) :
    q_rollout_lamb 0 discount rewards mask q_values H i = q_values i := by
  rw [q_rollout_lamb, q_rollback_lamb_zero]
  congr 1
  omega

/-- Witness for C8 at `H = 2`, `i = 1`. -/
theorem lambda_zero_returns_critic_values_witness :
    q_rollout_lamb 0 (9 / 10) (fun _ => 2) (fun _ => 1) (fun j => j) 2 1 = 1 :=
  lambda_zero_returns_critic_values 2 1 (by norm_num) (9 / 10)
    (fun _ => 2) (fun _ => 1) (fun j => (j : ℚ))

/-- C10: for `lamb ≥ 0` the accumulated weight `lamb_weight` stays `≥ 1`
throughout the backward recursion, so the divisor `1 + lamb * lamb_weight`
stays `≥ 1` and is never zero: the division in the lambda recursion is never
a division by zero. -/
theorem lamb_weight_divisor_safe (lamb : ℚ) (hlamb : 0 ≤ lamb) :
    ∀ n, 1 ≤ lamb_weight lamb n ∧ 1 ≤ 1 + lamb * lamb_weight lamb n ∧
      1 + lamb * lamb_weight lamb n ≠ 0 := by
  intro n
  have hw : 1 ≤ lamb_weight lamb n := by
    induction n with
    | zero => exact le_refl 1
    | succ n ih =>
        rw [lamb_weight]
        nlinarith
  have hd : 1 ≤ 1 + lamb * lamb_weight lamb n := by nlinarith
  exact ⟨hw, hd, by linarith⟩

/-- Witness for C10 at `lamb = 1/2`, `n = 3`. -/
theorem lamb_weight_divisor_safe_witness :
    1 + (1 / 2 : ℚ) * lamb_weight (1 / 2) 3 ≠ 0 :=
  (lamb_weight_divisor_safe (1 / 2) (by norm_num) 3).2.2

/-- The actor loss assembled by `actor_loss_fn` in both DPG variants
(actor.py lines 221-223 and 350-352):
`actor_loss = -(ep_weights[:, :, None] * grad_gae * actions_grad).mean(axis=1).sum()`.
The product tensor has shape `(H+1, B, D)` (horizon index `i`, batch index `b`,
action dimension `d`); `.mean(axis=1)` averages over the batch and `.sum()` then
sums over the horizon and action-dimension axes. -/
def actor_loss (H B D : ℕ) (ep_w : ℕ → ℕ → ℚ) (grad_gae actions_grad : ℕ → ℕ → ℕ → ℚ) :
    ℚ :=
  -(∑ i ∈ Finset.range (H + 1), ∑ d ∈ Finset.range D,
      (∑ b ∈ Finset.range B, ep_w i b * grad_gae i b d * actions_grad i b d) / (B : ℚ))

/-- Modelled from the spec sentence
`loss = -mean_over_horizon_and_batch( weight * value_gradient * policy_action )`:
the negative mean of the product tensor over all of its entries
(horizon, batch, and action-dimension axes). -/
def actor_loss_spec_mean (H B D : ℕ) (ep_w : ℕ → ℕ → ℚ)
    (grad_gae actions_grad : ℕ → ℕ → ℕ → ℚ) : ℚ :=
  -((∑ i ∈ Finset.range (H + 1), ∑ d ∈ Finset.range D,
      ∑ b ∈ Finset.range B, ep_w i b * grad_gae i b d * actions_grad i b d) /
    (((H : ℚ) + 1) * (B : ℚ) * (D : ℚ)))

/-- Counterexample to C3: at `H = 1`, `B = 1`, `D = 1` with all factors equal
to `1`, the code's loss is `-2` (a sum over the two horizon steps of batch
means) while the negative mean over horizon and batch is `-1`. -/
theorem actor_loss_counterexample :
    actor_loss 1 1 1 (fun _ _ => 1) (fun _ _ _ => 1) (fun _ _ _ => 1) = -2 ∧
    actor_loss_spec_mean 1 1 1 (fun _ _ => 1) (fun _ _ _ => 1) (fun _ _ _ => 1) = -1 ∧
    actor_loss 1 1 1 (fun _ _ => 1) (fun _ _ _ => 1) (fun _ _ _ => 1) ≠
      actor_loss_spec_mean 1 1 1 (fun _ _ => 1) (fun _ _ _ => 1) (fun _ _ _ => 1) := by
  refine ⟨?_, ?_, ?_⟩ <;>
    norm_num [actor_loss, actor_loss_spec_mean, Finset.sum_range_succ]

/-- C3 (amended): the actor loss is the negative sum over the horizon and
action-dimension axes of the batch mean of
`weight * value_gradient * policy_action`; it equals `(H+1) * D` times the
negative mean over all three axes, not that mean itself. -/
theorem actor_loss_is_scaled_mean (H B D : ℕ) (hB : 0 < B) (hD : 0 < D)
    (ep_w : ℕ → ℕ → ℚ) (grad_gae actions_grad : ℕ → ℕ → ℕ → ℚ) :
    actor_loss H B D ep_w grad_gae actions_grad =
      ((H : ℚ) + 1) * (D : ℚ) *
        actor_loss_spec_mean H B D ep_w grad_gae actions_grad := by
  have hB' : (B : ℚ) ≠ 0 := Nat.cast_ne_zero.mpr hB.ne'
  have hD' : (D : ℚ) ≠ 0 := Nat.cast_ne_zero.mpr hD.ne'
  have hH' : (H : ℚ) + 1 ≠ 0 := by positivity
  rw [actor_loss, actor_loss_spec_mean]
  simp only [← Finset.sum_div]
  rw [mul_neg, neg_inj]
  field_simp
  ring

/-- Witness for C3's amended theorem at `H = 1`, `B = 1`, `D = 1`. -/
theorem actor_loss_is_scaled_mean_witness :
    actor_loss 1 1 1 (fun _ _ => 1) (fun _ _ _ => 2) (fun _ _ _ => 1) =
      ((1 : ℚ) + 1) * (1 : ℚ) *
        actor_loss_spec_mean 1 1 1 (fun _ _ => 1) (fun _ _ _ => 2) (fun _ _ _ => 1) :=
  actor_loss_is_scaled_mean 1 1 1 one_pos one_pos
    (fun _ _ => 1) (fun _ _ _ => 2) (fun _ _ _ => 1)

/-- The mean of the alive-mask tensor `mask_weights0` of shape `(H+1, B)`
(the denominator of the `policy_std` and `adv_weights` info entries,
actor.py lines 228-230 and 357-359): the sum of all mask values divided by
the element count `(H+1) * B`. -/
def mask_weights_mean (H B : ℕ) (terminal : ℕ → ℕ → ℚ) : ℚ :=
  (∑ i ∈ Finset.range (H + 1), ∑ b ∈ Finset.range B, mask_weights (terminal b) i) /
    (((H : ℚ) + 1) * (B : ℚ))

/-- C9: the denominator of the masked-mean info computations is never zero.
There is no conditional guard in the code; instead the mask at step `0` is
identically `1`, so for terminal flags in `[0, 1]` the mean alive-mask is at
least `1 / (H+1) > 0` even when every trajectory terminates immediately, and
the divisions for `policy_std` and `adv_weights` are never divisions by zero. -/
theorem mask_weights_mean_never_zero (H B : ℕ) (hB : 0 < B) (terminal : ℕ → ℕ → ℚ)
    (hterm : ∀ b i, 0 ≤ terminal b i ∧ terminal b i ≤ 1) :
    1 / ((H : ℚ) + 1) ≤ mask_weights_mean H B terminal ∧
    mask_weights_mean H B terminal ≠ 0 := by
  have hB' : (0 : ℚ) < (B : ℚ) := by exact_mod_cast hB
  have hH' : (0 : ℚ) < (H : ℚ) + 1 := by positivity
  have hnum : (B : ℚ) ≤
      ∑ i ∈ Finset.range (H + 1), ∑ b ∈ Finset.range B, mask_weights (terminal b) i := by
    have h0 : ∑ b ∈ Finset.range B, mask_weights (terminal b) 0 = (B : ℚ) := by
      simp [mask_weights]
    calc (B : ℚ) = ∑ b ∈ Finset.range B, mask_weights (terminal b) 0 := h0.symm
      _ ≤ _ := by
          apply Finset.single_le_sum (f := fun i =>
            ∑ b ∈ Finset.range B, mask_weights (terminal b) i)
          · intro i _
            exact Finset.sum_nonneg fun b _ =>
              (mask_weights_mem_unit (terminal b) (hterm b) i).1
          · simp
  have hle : 1 / ((H : ℚ) + 1) ≤ mask_weights_mean H B terminal := by
    rw [mask_weights_mean]
    rw [show (1 : ℚ) / ((H : ℚ) + 1) = (B : ℚ) / (((H : ℚ) + 1) * (B : ℚ)) by
      field_simp]
    apply div_le_div_of_nonneg_right hnum ?_ |>.trans_eq rfl
    positivity
  refine ⟨hle, ?_⟩
  have : (0 : ℚ) < mask_weights_mean H B terminal := lt_of_lt_of_le (by positivity) hle
  exact this.ne'

/-- Witness for C9 at `H = 1`, `B = 1` with immediate termination
(`terminal ≡ 1`): the mean alive-mask is still nonzero. -/
theorem mask_weights_mean_never_zero_witness :
    mask_weights_mean 1 1 (fun _ _ => 1) ≠ 0 :=
  (mask_weights_mean_never_zero 1 1 one_pos (fun _ _ => 1)
    (fun _ _ => ⟨zero_le_one, le_refl 1⟩)).2

/-- One step of the imagined trajectory: the current state, the action taken at
that state, the current random key, and the alive-mask value.  The dynamics
model is the opaque map `(rng, state, action) ↦ (next_state, reward, terminal)`
(its fourth auxiliary output is discarded by the code); `split4` models
`jax.random.split(key, 4)`, of which the code uses component 1 (`rng1`, fed to
the model) and component 4 (the continuation key). -/
structure Step (S A K : Type) where
  state : S
  action : A
  key : K
  mask : ℚ

/-- Trajectory generation of `calculate_gae_backward` (actor.py lines 170-189):
`states = [Robs]`, `actions = [Ra + delta_a[0]]`, `mask_weights = [1.0]`,
`keys = [key0]`, and per loop iteration
`rng1, rng2, rng3, key0 = jax.random.split(keys[-1], 4)`,
`s_next, rew, terminal, _ = model(rng1, states[i], actions[i])`,
`a_next = get_deter(actor(s_next)) + delta_a[i + 1]`,
`mask_weights.append(mask_weights[i] * (1 - terminal))`. -/
def btraj {S A K : Type} [Add A] (model : K → S → A → S × ℚ × ℚ) (actor : S → A)
    (split4 : K → K × K × K × K) (delta_a : ℕ → A) (Robs : S) (Ra : A) (key0 : K) :
    ℕ → Step S A K
  | 0 => ⟨Robs, Ra + delta_a 0, key0, 1⟩
  | i + 1 =>
      let prev := btraj model actor split4 delta_a Robs Ra key0 i
      let out := model (split4 prev.key).1 prev.state prev.action
      ⟨out.1, actor out.1 + delta_a (i + 1), (split4 prev.key).2.2.2,
        prev.mask * (1 - out.2.2)⟩

/-- The reward `rewards[i]` produced at loop iteration `i` of
`calculate_gae_backward`: the second output of the model applied to the step-`i`
state and (perturbed) action with the sub-key `rng1` split from the step-`i` key. -/
def brew {S A K : Type} [Add A] (model : K → S → A → S × ℚ × ℚ) (actor : S → A)
    (split4 : K → K × K × K × K) (delta_a : ℕ → A) (Robs : S) (Ra : A) (key0 : K)
    (i : ℕ) : ℚ :=
  (model (split4 (btraj model actor split4 delta_a Robs Ra key0 i).key).1
      (btraj model actor split4 delta_a Robs Ra key0 i).state
      (btraj model actor split4 delta_a Robs Ra key0 i).action).2.1

/-- The critic evaluation `q_values[i]` of `calculate_gae_backward`
(actor.py lines 179 and 189): the critic at the step-`i` state and (perturbed)
action. -/
def bqval {S A K : Type} [Add A] (model : K → S → A → S × ℚ × ℚ) (actor : S → A)
    (critic : S → A → ℚ) (split4 : K → K × K × K × K) (delta_a : ℕ → A) (Robs : S)
    (Ra : A) (key0 : K) (i : ℕ) : ℚ :=
  critic (btraj model actor split4 delta_a Robs Ra key0 i).state
    (btraj model actor split4 delta_a Robs Ra key0 i).action

/-- Function `calculate_gae_backward` of `DPG_lambda_update_actor` (actor.py lines 170-205):
generate the perturbed trajectory, then run the lambda-return backward
recursion on its rewards, alive-masks and critic values.  Returns entry `i` of
the stacked `q_rollout`. -/
def calculate_gae_backward_lamb {S A K : Type} [Add A]
    (model : K → S → A → S × ℚ × ℚ) (actor : S → A) (critic : S → A → ℚ)
    (split4 : K → K × K × K × K) (lamb discount : ℚ) (H : ℕ) (delta_a : ℕ → A)
    (Robs : S) (Ra : A) (key0 : K) (i : ℕ) : ℚ :=
  q_rollout_lamb lamb discount (brew model actor split4 delta_a Robs Ra key0)
    (fun j => (btraj model actor split4 delta_a Robs Ra key0 j).mask)
    (bqval model actor critic split4 delta_a Robs Ra key0) H i

/-- Function `calculate_gae_backward` of `DPG_multistep_update_actor` (actor.py lines 304-335):
same perturbed trajectory generation, multi-step backward recursion. -/
def calculate_gae_backward_ms {S A K : Type} [Add A]
    (model : K → S → A → S × ℚ × ℚ) (actor : S → A) (critic : S → A → ℚ)
    (split4 : K → K × K × K × K) (discount : ℚ) (H : ℕ) (delta_a : ℕ → A)
    (Robs : S) (Ra : A) (key0 : K) (i : ℕ) : ℚ :=
  q_rollout_ms discount (brew model actor split4 delta_a Robs Ra key0)
    (fun j => (btraj model actor split4 delta_a Robs Ra key0 j).mask)
    (bqval model actor critic split4 delta_a Robs Ra key0) H i

/-- Trajectory generation of `calculate_gae_foward` (actor.py lines 120-133 and
258-271, identical in both variants): as `btraj` but with no perturbation added
to the actions. -/
def ftraj {S A K : Type} (model : K → S → A → S × ℚ × ℚ) (actor : S → A)
    (split4 : K → K × K × K × K) (Robs : S) (Ra : A) (key0 : K) : ℕ → Step S A K
  | 0 => ⟨Robs, Ra, key0, 1⟩
  | i + 1 =>
      let prev := ftraj model actor split4 Robs Ra key0 i
      let out := model (split4 prev.key).1 prev.state prev.action
      ⟨out.1, actor out.1, (split4 prev.key).2.2.2, prev.mask * (1 - out.2.2)⟩

/-- The reward `rewards[i]` of the forward pass. -/
def frew {S A K : Type} (model : K → S → A → S × ℚ × ℚ) (actor : S → A)
    (split4 : K → K × K × K × K) (Robs : S) (Ra : A) (key0 : K) (i : ℕ) : ℚ :=
  (model (split4 (ftraj model actor split4 Robs Ra key0 i).key).1
      (ftraj model actor split4 Robs Ra key0 i).state
      (ftraj model actor split4 Robs Ra key0 i).action).2.1

/-- The critic evaluation `q_values[i]` of the forward pass
(actor.py lines 123 and 133). -/
def fqval {S A K : Type} (model : K → S → A → S × ℚ × ℚ) (actor : S → A)
    (critic : S → A → ℚ) (split4 : K → K × K × K × K) (Robs : S) (Ra : A)
    (key0 : K) (i : ℕ) : ℚ :=
  critic (ftraj model actor split4 Robs Ra key0 i).state
    (ftraj model actor split4 Robs Ra key0 i).action

/-- Function `calculate_gae_foward` of `DPG_lambda_update_actor`, return-estimation part
(actor.py lines 120-147): entry `i` of the stacked `q_rollout`. -/
def calculate_gae_foward_lamb {S A K : Type} (model : K → S → A → S × ℚ × ℚ)
    (actor : S → A) (critic : S → A → ℚ) (split4 : K → K × K × K × K)
    (lamb discount : ℚ) (H : ℕ) (Robs : S) (Ra : A) (key0 : K) (i : ℕ) : ℚ :=
  q_rollout_lamb lamb discount (frew model actor split4 Robs Ra key0)
    (fun j => (ftraj model actor split4 Robs Ra key0 j).mask)
    (fqval model actor critic split4 Robs Ra key0) H i

/-- Function `calculate_gae_foward` of `DPG_multistep_update_actor`, return-estimation part
(actor.py lines 258-281): entry `i` of the stacked `q_rollout`. -/
def calculate_gae_foward_ms {S A K : Type} (model : K → S → A → S × ℚ × ℚ)
    (actor : S → A) (critic : S → A → ℚ) (split4 : K → K × K × K × K)
    (discount : ℚ) (H : ℕ) (Robs : S) (Ra : A) (key0 : K) (i : ℕ) : ℚ :=
  q_rollout_ms discount (frew model actor split4 Robs Ra key0)
    (fun j => (ftraj model actor split4 Robs Ra key0 j).mask)
    (fqval model actor critic split4 Robs Ra key0) H i

/-- With an all-zero perturbation the replayed trajectory coincides with the
forward trajectory. -/
theorem btraj_zero_eq_ftraj {S A K : Type} [AddZeroClass A]
    (model : K → S → A → S × ℚ × ℚ) (actor : S → A) (split4 : K → K × K × K × K)
    (Robs : S) (Ra : A) (key0 : K) (i : ℕ) :
    btraj model actor split4 (fun _ => 0) Robs Ra key0 i =
      ftraj model actor split4 Robs Ra key0 i := by
  induction i with
  | zero => simp [btraj, ftraj]
  | succ i ih => simp [btraj, ftraj, ih]

/-- C5: evaluating `calculate_gae_backward` at an all-zero perturbation yields
exactly the `q_rollout` sequence of `calculate_gae_foward` on the same start
state, start action and key, in both the lambda-weighted and the multi-step
variants. -/
theorem backward_zero_perturbation_matches_foward {S A K : Type} [AddZeroClass A]
    (model : K → S → A → S × ℚ × ℚ) (actor : S → A) (critic : S → A → ℚ)
    (split4 : K → K × K × K × K) (lamb discount : ℚ) (H : ℕ) (Robs : S) (Ra : A)
    (key0 : K) :
    (∀ i, calculate_gae_backward_lamb model actor critic split4 lamb discount H
        (fun _ => 0) Robs Ra key0 i =
      calculate_gae_foward_lamb model actor critic split4 lamb discount H
        Robs Ra key0 i) ∧
    (∀ i, calculate_gae_backward_ms model actor critic split4 discount H
        (fun _ => 0) Robs Ra key0 i =
      calculate_gae_foward_ms model actor critic split4 discount H
        Robs Ra key0 i) := by
  have htraj := btraj_zero_eq_ftraj model actor split4 Robs Ra key0
  have hrew : brew model actor split4 (fun _ => 0) Robs Ra key0 =
      frew model actor split4 Robs Ra key0 :=
    funext fun j => by rw [brew, frew, htraj j]
  have hqv : bqval model actor critic split4 (fun _ => 0) Robs Ra key0 =
      fqval model actor critic split4 Robs Ra key0 :=
    funext fun j => by rw [bqval, fqval, htraj j]
  have hmask : (fun j =>
        (btraj model actor split4 (fun _ => (0 : A)) Robs Ra key0 j).mask) =
      (fun j => (ftraj model actor split4 Robs Ra key0 j).mask) :=
    funext fun j => by rw [htraj j]
  constructor <;> intro i
  · rw [calculate_gae_backward_lamb, calculate_gae_foward_lamb, hrew, hqv, hmask]
  · rw [calculate_gae_backward_ms, calculate_gae_foward_ms, hrew, hqv, hmask]

/-- Counterexample to C4: with `H = 1`, `j = 0 < k = 1`, state space `ℚ`,
dynamics `(rng, s, a) ↦ (s, 0, 0)`, policy `≡ 0`, critic `(s, a) ↦ a`,
`lamb = discount = 1`: changing only `delta_a[1]` (from `0` to `1`) changes
`q_rollout[0]` of `calculate_gae_backward` (from `0` to `1/2`), because the
backward recursion folds the later critic value into the earlier return. -/
theorem backward_earlier_return_depends_on_later_delta :
    calculate_gae_backward_lamb (S := ℚ) (A := ℚ) (K := Unit)
        (fun _ s _ => (s, 0, 0)) (fun _ => 0) (fun _ a => a)
        (fun u => (u, u, u, u)) 1 1 1 (fun m => if m = 1 then 1 else 0)
        0 0 () 0 ≠
      calculate_gae_backward_lamb (fun _ s _ => (s, 0, 0)) (fun _ => 0)
        (fun _ a => a) (fun u => (u, u, u, u)) 1 1 1 (fun _ => 0) 0 0 () 0 := by
  norm_num [calculate_gae_backward_lamb, q_rollout_lamb, q_rollback_lamb,
    bqval, brew, btraj, lamb_weight]

/-- C4 (amended): varying only the perturbation `delta_a[k]` leaves the
generated trajectory at every step `j < k` unchanged — state, action, key,
alive-mask, reward and critic value — while the return estimates
`q_rollout[j]` for `j < k` can change (see the counterexample), since the
backward recursion folds later rewards, masks and the terminal critic value
into earlier entries. -/
theorem backward_trajectory_prefix_independent {S A K : Type} [Add A]
    (model : K → S → A → S × ℚ × ℚ) (actor : S → A) (critic : S → A → ℚ)
    (split4 : K → K × K × K × K) (Robs : S) (Ra : A) (key0 : K)
    (delta_a delta_a' : ℕ → A) (k : ℕ)
    (hagree : ∀ m, m ≠ k → delta_a m = delta_a' m) :
    ∀ j, j < k →
      btraj model actor split4 delta_a Robs Ra key0 j =
        btraj model actor split4 delta_a' Robs Ra key0 j ∧
      brew model actor split4 delta_a Robs Ra key0 j =
        brew model actor split4 delta_a' Robs Ra key0 j ∧
      bqval model actor critic split4 delta_a Robs Ra key0 j =
        bqval model actor critic split4 delta_a' Robs Ra key0 j := by
  have htraj : ∀ j, j < k →
      btraj model actor split4 delta_a Robs Ra key0 j =
        btraj model actor split4 delta_a' Robs Ra key0 j := by
    intro j
    induction j with
    | zero =>
        intro h0
        rw [btraj, btraj, hagree 0 (by omega)]
    | succ j ih =>
        intro hjk
        rw [btraj, btraj, ih (by omega), hagree (j + 1) (by omega)]
  intro j hj
  exact ⟨htraj j hj, by rw [brew, brew, htraj j hj], by rw [bqval, bqval, htraj j hj]⟩

/-- Witness for C4's amended theorem: at step `0 < 1`, the critic value is
unchanged between the all-zero perturbation and the one perturbing step `1`. -/
theorem backward_trajectory_prefix_independent_witness :
    bqval (S := ℚ) (A := ℚ) (K := Unit) (fun _ s _ => (s, 0, 0)) (fun _ => 0)
        (fun _ a => a) (fun u => (u, u, u, u)) (fun m => if m = 1 then 1 else 0)
        0 0 () 0 =
      bqval (fun _ s _ => (s, 0, 0)) (fun _ => 0) (fun _ a => a)
        (fun u => (u, u, u, u)) (fun _ => 0) 0 0 () 0 :=
  (backward_trajectory_prefix_independent (fun _ s _ => (s, 0, 0)) (fun _ => 0)
    (fun _ a => a) (fun u => (u, u, u, u)) 0 0 ()
    (fun m => if m = 1 then 1 else 0) (fun _ => 0) 1
    (fun m hm => if_neg hm) 0 one_pos).2.2

/-- Witness for C5 at a concrete instantiation (state space `ℚ`, dynamics
`(rng, s, a) ↦ (s + a, 1, 0)`, policy `s ↦ s`, critic `(s, a) ↦ s + a`). -/
theorem backward_zero_perturbation_matches_foward_witness :
    calculate_gae_backward_lamb (S := ℚ) (A := ℚ) (K := Unit)
        (fun _ s a => (s + a, 1, 0)) (fun s => s) (fun s a => s + a)
        (fun u => (u, u, u, u)) (1 / 2) (9 / 10) 2 (fun _ => 0) 1 1 () 0 =
      calculate_gae_foward_lamb (fun _ s a => (s + a, 1, 0)) (fun s => s)
        (fun s a => s + a) (fun u => (u, u, u, u)) (1 / 2) (9 / 10) 2 1 1 () 0 :=
  (backward_zero_perturbation_matches_foward (fun _ s a => (s + a, 1, 0))
    (fun s => s) (fun s a => s + a) (fun u => (u, u, u, u)) (1 / 2) (9 / 10)
    2 1 1 ()).1 0

end LEQ
